import Mathlib

/-!
Verification development for the Diameter (RFC 6733) protocol library.

The definitions below are a shallow embedding of the Go sources:
message/avp.go, message/message.go, message/codes.go,
message/datatypes_basic.go, the derived-datatype file, the utils package
and state/fsm.go.  Machine integers (uint8, uint32, 24-bit wire fields)
are modelled as Nat with explicit reductions mod 256, mod 2^24 and
mod 2^32 where the Go code truncates.  Byte slices are lists of Nat.
Go functions that can hit a runtime failure (slice bounds violations,
out-of-range indexing) return a dedicated outcome in GoResult.
-/

namespace Diameter

/-- Byte strings are lists of naturals; conversions to the Go byte type insert mod 256. -/
abbrev Bytes := List Nat

/-- utils.ToBytes: writes the low count bytes of a uint32 value, most significant first. -/
def ToBytes (value : Nat) (count : Nat) : Bytes :=
  (List.range count).map fun i => value / 256 ^ (count - 1 - i) % 256

/-- utils.FromBytes: big-endian accumulation, result = result shifted left 8 or-ed with the byte, in uint32 arithmetic. -/
def FromBytes (data : Bytes) : Nat :=
  data.foldl (fun r b => (r * 256 + b % 256) % 4294967296) 0

/-- getPadding from avp.go: bytes needed to reach the next 4-octet boundary. -/
def getPadding (length : Nat) : Nat := (4 - length % 4) % 4

/-- encode32 from datatypes_basic.go: buffer index i receives byte(data shifted right by 8*i), so the least significant byte comes first. -/
def encode32 (data : Nat) : Bytes :=
  (List.range 4).map fun i => data / 256 ^ i % 256

/-- encode64 from datatypes_basic.go: least significant byte first, 8 bytes. -/
def encode64 (data : Nat) : Bytes :=
  (List.range 8).map fun i => data / 256 ^ i % 256

/-- Outcome of running Go code that can return a value, return an error, or die with a runtime fault such as a slice bounds violation. -/
inductive GoResult (α : Type) : Type where
  | ok (val : α)
  | err (msg : String)
  | crash
deriving DecidableEq, Repr

/-- decode32 from datatypes_basic.go: reads data[0] through data[3], least significant first; indexing past the end of the slice is a Go runtime fault. -/
def decode32 (data : Bytes) : GoResult Nat :=
  if 4 ≤ data.length then
    .ok (data.getD 0 0 % 256 + data.getD 1 0 % 256 * 256 +
         data.getD 2 0 % 256 * 65536 + data.getD 3 0 % 256 * 16777216)
  else .crash

/-- Go slice expression data[lo:hi]; bounds outside 0 ≤ lo ≤ hi ≤ len(data) are a runtime fault. -/
def goSlice (data : Bytes) (lo hi : Nat) : Option Bytes :=
  if lo ≤ hi ∧ hi ≤ data.length then some ((data.take hi).drop lo) else none

/-- Closed range test on a byte, used by the UTF-8 validator. -/
def inRange (lo hi b : Nat) : Bool := decide (lo ≤ b ∧ b ≤ hi)

/-- Continuation byte test: 0x80 through 0xBF. -/
def contB (b : Nat) : Bool := inRange 128 191 b

/-- Consume one byte that must lie in the given accept range, as Go utf8 does for the bytes after a lead byte. -/
def takeCont (lo hi : Nat) : List Nat → Option (List Nat)
  | b :: t => if inRange lo hi b then some t else none
  | [] => none

/-- One step of Go utf8.Valid: given the lead byte and the bytes after it, consume the continuation bytes of one RFC 3629 rune encoding and return the remaining bytes, or none when the sequence is not acceptable.  This is the first/acceptRanges table of the Go utf8 package: lead bytes below 0x80 stand alone; 0x80-0xC1 are invalid leads; 0xC2-0xDF take one continuation byte in 0x80-0xBF; 0xE0-0xEF take two, the first restricted to 0xA0-0xBF after 0xE0 and to 0x80-0x9F after 0xED (excluding surrogates); 0xF0-0xF4 take three, the first restricted to 0x90-0xBF after 0xF0 and to 0x80-0x8F after 0xF4 (capping at U+10FFFF); 0xF5-0xFF are invalid. -/
def utf8Step (b0 : Nat) (t : List Nat) : Option (List Nat) :=
  if b0 < 128 then some t
  else if b0 < 194 then none
  else if b0 < 224 then takeCont 128 191 t
  else if b0 < 240 then
    (takeCont (if b0 = 224 then 160 else 128) (if b0 = 237 then 159 else 191) t).bind
      (takeCont 128 191)
  else if b0 < 245 then
    ((takeCont (if b0 = 240 then 144 else 128) (if b0 = 244 then 143 else 191) t).bind
      (takeCont 128 191)).bind (takeCont 128 191)
  else none

/-- A successful takeCont consumes exactly one byte. -/
theorem takeCont_length (lo hi : Nat) (t r : List Nat) (h : takeCont lo hi t = some r) :
    r.length + 1 = t.length := by
  cases t with
  | nil => cases h
  | cons b t1 =>
    simp only [takeCont] at h
    split_ifs at h
    cases h
    rfl

/-- A successful utf8Step never grows the remaining byte string. -/
theorem utf8Step_length (b0 : Nat) (t rest : List Nat) (h : utf8Step b0 t = some rest) :
    rest.length ≤ t.length := by
  unfold utf8Step at h
  generalize hlo2 : (if b0 = 224 then 160 else 128 : Nat) = lo2 at h
  generalize hhi2 : (if b0 = 237 then 159 else 191 : Nat) = hi2 at h
  generalize hlo3 : (if b0 = 240 then 144 else 128 : Nat) = lo3 at h
  generalize hhi3 : (if b0 = 244 then 143 else 191 : Nat) = hi3 at h
  split_ifs at h
  · cases h
    exact Nat.le_refl _
  · have := takeCont_length _ _ _ _ h
    omega
  · cases hm : takeCont lo2 hi2 t with
    | none => rw [hm] at h; cases h
    | some r1 =>
      rw [hm] at h
      simp only [Option.some_bind] at h
      have h1 := takeCont_length _ _ _ _ hm
      have h2 := takeCont_length _ _ _ _ h
      omega
  · cases hm : takeCont lo3 hi3 t with
    | none => rw [hm] at h; cases h
    | some r1 =>
      rw [hm] at h
      simp only [Option.some_bind] at h
      cases hm2 : takeCont 128 191 r1 with
      | none => rw [hm2] at h; cases h
      | some r2 =>
        rw [hm2] at h
        simp only [Option.some_bind] at h
        have h1 := takeCont_length _ _ _ _ hm
        have h2 := takeCont_length _ _ _ _ hm2
        have h3 := takeCont_length _ _ _ _ h
        omega

/-- Semantics of Go utf8.Valid as used by UTF8String.Decode: repeatedly consume one well-formed RFC 3629 rune encoding (code points U+0000 to U+10FFFF, no surrogates, shortest form) until the byte string is exhausted. -/
def utf8Valid : List Nat → Bool
  | [] => true
  | b0 :: t =>
    match h : utf8Step b0 t with
    | some rest => utf8Valid rest
    | none => false
termination_by data => data.length
decreasing_by
  simp only [List.length_cons]
  have := utf8Step_length b0 t rest h
  omega

/-- net.IP To4: a 4-byte address, or the low 4 bytes of a 16-byte v4-in-v6 address. -/
def ipTo4 (ip : Bytes) : Option Bytes :=
  if ip.length = 4 then some ip
  else if ip.length = 16 ∧ ip.take 12 = [0, 0, 0, 0, 0, 0, 0, 0, 0, 0, 255, 255] then
    some (ip.drop 12)
  else none

/-- net.IP To16: a 16-byte address, or a 4-byte address widened with the v4-in-v6 prefix. -/
def ipTo16 (ip : Bytes) : Option Bytes :=
  if ip.length = 16 then some ip
  else if ip.length = 4 then some ([0, 0, 0, 0, 0, 0, 0, 0, 0, 0, 255, 255] ++ ip)
  else none

mutual
/-- The AVP payload variants of the library: the basic types of datatypes_basic.go (OctetString with its minimum-length floor, Unsigned32, Unsigned64, Grouped) and the derived types (UTF8String, DiameterIdentity, DiameterURI, Address, Time). -/
inductive AVPData : Type where
  | octetString (data : Bytes) (minLength : Nat)
  | unsigned32 (val : Nat)
  | unsigned64 (val : Nat)
  | utf8String (data : Bytes)
  | diameterIdentity (data : Bytes)
  | diameterURI (data : Bytes)
  | address (isIPv4 : Bool) (ip : Bytes)
  | time (data : Bytes)
  | grouped (avps : AVPList)
/-- The AVP struct of avp.go: Code, Flags, AVPlength (header plus data), optional VendorID, payload. -/
inductive AVP : Type where
  | mk (code : Nat) (flags : Nat) (avpLength : Nat) (vendorID : Nat) (data : AVPData)
/-- A Go slice of AVP pointers, as carried by Grouped payloads and Diameter messages. -/
inductive AVPList : Type where
  | nil
  | cons (head : AVP) (tail : AVPList)
end

def AVP.code : AVP → Nat
  | .mk c _ _ _ _ => c

def AVP.flags : AVP → Nat
  | .mk _ f _ _ _ => f

def AVP.avpLength : AVP → Nat
  | .mk _ _ l _ _ => l

def AVP.vendorID : AVP → Nat
  | .mk _ _ _ v _ => v

def AVP.data : AVP → AVPData
  | .mk _ _ _ _ d => d

/-- AVP.isFlagSet: (Flags and flag) equals flag. -/
def AVP.isFlagSet (a : AVP) (flag : Nat) : Bool := a.flags &&& flag = flag

/-- AVP.getHeaderLength: 12 bytes with the vendor bit 0x80 set, 8 otherwise. -/
def AVP.getHeaderLength (a : AVP) : Nat := if a.isFlagSet 128 then 12 else 8

/-- IsDerivedFromOctetString from datatypes_basic.go: structural reflection over the Go struct, true exactly for the variants whose struct type embeds an OctetString field (UTF8String, DiameterIdentity, Address, Time).  OctetString itself, DiameterURI, the integers and Grouped have no field of type OctetString, so the reflection returns false for them. -/
def IsDerivedFromOctetString : AVPData → Bool
  | .utf8String _ => true
  | .diameterIdentity _ => true
  | .address _ _ => true
  | .time _ => true
  | _ => false

mutual
/-- Encode of the payload variants, following each Go Encode method: OctetString zero-fills up to its minimum length and pads itself to a 4-octet boundary; the integers use the little-endian encode32/encode64; UTF8String, DiameterIdentity and DiameterURI emit their raw bytes; Address emits the 2-byte family, the address and its own padding; Time insists on 4 bytes; Grouped concatenates the encodings of its members. -/
def AVPData.encode : AVPData → Except String Bytes
  | .octetString data minLength =>
    let length := if data.length < minLength then minLength else data.length
    .ok (data ++ List.replicate (length + getPadding length - data.length) 0)
  | .unsigned32 v => .ok (encode32 v)
  | .unsigned64 v => .ok (encode64 v)
  | .utf8String data => .ok data
  | .diameterIdentity data => .ok data
  | .diameterURI data => .ok data
  | .address isIPv4 ip =>
    if isIPv4 then
      match ipTo4 ip with
      | none => .error "invalid IPv4 address"
      | some ip4 => .ok ([0, 1] ++ ip4 ++ List.replicate (getPadding 6) 0)
    else
      match ipTo16 ip with
      | none => .error "invalid IPv6 address"
      | some ip16 => .ok ([0, 2] ++ ip16 ++ List.replicate (getPadding 18) 0)
  | .time data =>
    if data.length = 4 then .ok data else .error "invalid time data length"
  | .grouped avps => AVPList.encode avps
/-- AVP.Encode from avp.go: the 8-byte header (12 with the vendor bit), then the payload bytes, then zero padding to a 4-octet boundary, the latter only when IsDerivedFromOctetString holds of the payload. -/
def AVP.encode : AVP → Except String Bytes
  | .mk code flags avpLength vendorID d =>
    let header := ToBytes code 4 ++ [flags % 256] ++ ToBytes avpLength 3 ++
      (if flags &&& 128 = 128 then ToBytes vendorID 4 else [])
    match AVPData.encode d with
    | .error e => .error e
    | .ok data =>
      if IsDerivedFromOctetString d then
        .ok (header ++ data ++ List.replicate (getPadding data.length) 0)
      else .ok (header ++ data)
/-- The encode-and-append loop shared by Grouped.Encode and DiameterMessage.Encode: encode each AVP in order, abort on the first error. -/
def AVPList.encode : AVPList → Except String Bytes
  | .nil => .ok []
  | .cons a rest =>
    match AVP.encode a with
    | .error e => .error e
    | .ok bs =>
      match AVPList.encode rest with
      | .error e => .error e
      | .ok bss => .ok (bs ++ bss)
end

deriving instance DecidableEq for AVPData
deriving instance DecidableEq for AVP
deriving instance DecidableEq for AVPList
deriving instance Repr for AVPData
deriving instance Repr for AVP
deriving instance Repr for AVPList

/-- The constructors held by the AVP registry: each maps to the Decode method of one payload type. -/
inductive AVPCtor : Type where
  | unsigned32C
  | utf8StringC
  | diameterIdentityC
  | addressC
  | groupedC
deriving DecidableEq, Repr

/-- Modelled from the spec: the registry avpTypeMap (AVP code to data-type constructor) is referenced by avp.go but its definition is not under src.  Following the spec, it is populated with the RFC 6733 base set: Session-Id 263, Origin-Host 264, Origin-Realm 296, Host-IP-Address 257, Vendor-Id 266, Product-Name 269, Origin-State-Id 278, Result-Code 268, Error-Message 281, Experimental-Result 297, Failed-AVP 279, with the data types RFC 6733 assigns to those AVPs. -/
def avpTypeMap (code : Nat) : Option AVPCtor :=
  if code = 263 then some .utf8StringC
  else if code = 264 then some .diameterIdentityC
  else if code = 296 then some .diameterIdentityC
  else if code = 257 then some .addressC
  else if code = 266 then some .unsigned32C
  else if code = 269 then some .utf8StringC
  else if code = 278 then some .unsigned32C
  else if code = 268 then some .unsigned32C
  else if code = 281 then some .utf8StringC
  else if code = 297 then some .groupedC
  else if code = 279 then some .groupedC
  else none

/-- Address.Decode from the derived-datatype file: a 2-byte family (1 is IPv4 with exactly 4 more bytes, 2 is IPv6 with exactly 16 more), anything else an error. -/
def addressDecode (data : Bytes) : GoResult AVPData :=
  if data.length < 2 then .err "invalid address length"
  else
    let family := data.getD 0 0 % 256 * 256 + data.getD 1 0 % 256
    if family = 1 then
      if data.length ≠ 6 then .err "invalid IPv4 address length"
      else .ok (.address true (data.drop 2))
    else if family = 2 then
      if data.length ≠ 18 then .err "invalid IPv6 address length"
      else .ok (.address false (data.drop 2))
    else .err "unknown address type"

/-- UTF8String.Decode from the derived-datatype file: validate with utf8.Valid, then store the raw bytes via the embedded OctetString. -/
def utf8StringDecode (data : Bytes) : Except String Bytes :=
  if utf8Valid data then .ok data else .error "invalid UTF-8 string"

/-- The loop of Grouped.Decode: DecodeAVP at the current offset, append, advance by AVPlength (without padding).  The fuel argument bounds the number of iterations; every caller passes more fuel than the byte count, which suffices because a successful DecodeAVP always has AVPlength at least 8. -/
def groupLoop (dec : Bytes → GoResult AVP) : Nat → Bytes → GoResult AVPList
  | 0 => fun _ => .crash
  | fuel + 1 => fun data =>
    if data.length = 0 then .ok .nil
    else
      match dec data with
      | .err e => .err e
      | .crash => .crash
      | .ok avp =>
        match groupLoop dec fuel (data.drop avp.avpLength) with
        | .err e => .err e
        | .crash => .crash
        | .ok rest => .ok (.cons avp rest)

/-- DecodeAVP from avp.go, with DecodeAVPData inlined: reject fewer than 8 bytes; read Code (4 bytes big-endian), Flags, AVPlength (3 bytes); reject when the buffer is shorter than AVPlength, or when the vendor bit is set and the buffer is shorter than 12; read VendorID when the vendor bit is set but, as in the source, without advancing the byte counter; then decode data[8:AVPlength] via the registry constructor.  The slice expression data[8:AVPlength] is a runtime fault when AVPlength is below 8.  The fuel argument bounds the nesting depth of Grouped payloads; the top-level entry point passes length+1, which suffices because each nested payload is strictly shorter. -/
def decodeAVPFuel : Nat → Bytes → GoResult AVP
  | 0 => fun _ => .crash
  | fuel + 1 => fun data =>
    if data.length < 8 then .err "AVP Decode: Insufficient data"
    else
      let code := FromBytes (data.take 4)
      let flags := data.getD 4 0
      let avpLength := FromBytes ((data.drop 5).take 3)
      if data.length < avpLength then .err "AVP Decode: Insufficient data"
      else if flags &&& 128 = 128 ∧ data.length < 12 then .err "AVP Decode: Insufficient data"
      else
        let vendorID := if flags &&& 128 = 128 then FromBytes ((data.drop 8).take 4) else 0
        match goSlice data 8 avpLength with
        | none => .crash
        | some payload =>
          match avpTypeMap code with
          | none => .err "Unsupported AVP code"
          | some ctor =>
            let decoded : GoResult AVPData :=
              match ctor with
              | .unsigned32C =>
                match decode32 payload with
                | .ok v => .ok (.unsigned32 v)
                | .err e => .err e
                | .crash => .crash
              | .utf8StringC =>
                match utf8StringDecode payload with
                | .ok d => .ok (.utf8String d)
                | .error e => .err e
              | .diameterIdentityC => .ok (.diameterIdentity payload)
              | .addressC => addressDecode payload
              | .groupedC =>
                match groupLoop (decodeAVPFuel fuel) (payload.length + 1) payload with
                | .ok avps => .ok (.grouped avps)
                | .err e => .err e
                | .crash => .crash
            match decoded with
            | .ok d => .ok (.mk code flags avpLength vendorID d)
            | .err e => .err e
            | .crash => .crash

/-- Top-level DecodeAVP: runs the fueled decoder with more fuel than the input length, which covers any nesting of Grouped payloads. -/
def DecodeAVP (data : Bytes) : GoResult AVP := decodeAVPFuel (data.length + 1) data

/-- The loop of extractAVPs from avp.go: DecodeAVP at the current offset, append, advance by AVPlength plus its padding.  Fuel as in groupLoop. -/
def extractAVPsFuel : Nat → Bytes → GoResult AVPList
  | 0 => fun _ => .crash
  | fuel + 1 => fun data =>
    if data.length = 0 then .ok .nil
    else
      match DecodeAVP data with
      | .err e => .err e
      | .crash => .crash
      | .ok avp =>
        match extractAVPsFuel fuel (data.drop (avp.avpLength + getPadding avp.avpLength)) with
        | .err e => .err e
        | .crash => .crash
        | .ok rest => .ok (.cons avp rest)

/-- extractAVPs from avp.go. -/
def extractAVPs (data : Bytes) : GoResult AVPList := extractAVPsFuel (data.length + 1) data

/-- The 20-byte Diameter message header of message.go. -/
structure DiameterHeader : Type where
  version : Nat
  messageLength : Nat
  commandFlags : Nat
  commandCode : Nat
  applicationID : Nat
  hopByHopID : Nat
  endToEndID : Nat
deriving DecidableEq, Repr

/-- DiameterHeader.Encode: version byte, 3-byte length, flags byte, 3-byte command code, then the three 4-byte identifiers, all big-endian. -/
def DiameterHeader.encode (h : DiameterHeader) : Bytes :=
  [h.version % 256] ++ ToBytes h.messageLength 3 ++ [h.commandFlags % 256] ++
  ToBytes h.commandCode 3 ++ ToBytes h.applicationID 4 ++
  ToBytes h.hopByHopID 4 ++ ToBytes h.endToEndID 4

/-- DecodeHeader from message.go: reject fewer than 20 bytes, reject a version other than 1, then read the seven fields. -/
def DecodeHeader (data : Bytes) : Except String DiameterHeader :=
  if data.length < 20 then .error "invalid header length"
  else if data.getD 0 0 ≠ 1 then .error "invalid version"
  else .ok ⟨data.getD 0 0, FromBytes ((data.drop 1).take 3), data.getD 4 0,
    FromBytes ((data.drop 5).take 3), FromBytes ((data.drop 8).take 4),
    FromBytes ((data.drop 12).take 4), FromBytes ((data.drop 16).take 4)⟩

/-- The Diameter message of message.go: a header and the ordered AVP list. -/
structure DiameterMessage : Type where
  header : DiameterHeader
  avps : AVPList
deriving DecidableEq, Repr

/-- DiameterMessage.Encode: the encoded header followed by each encoded AVP in order. -/
def DiameterMessage.encode (m : DiameterMessage) : Except String Bytes :=
  match AVPList.encode m.avps with
  | .error e => .error e
  | .ok avps => .ok (m.header.encode ++ avps)

/-- DecodeMessage from message.go: reject fewer than 20 bytes, decode the header, then extract the AVPs from everything after byte 20. -/
def DecodeMessage (data : Bytes) : GoResult DiameterMessage :=
  if data.length < 20 then .err "invalid message length for decoding"
  else
    match DecodeHeader data with
    | .error e => .err e
    | .ok header =>
      match extractAVPs (data.drop 20) with
      | .err e => .err e
      | .crash => .crash
      | .ok avps => .ok ⟨header, avps⟩

/-- Number of elements of an AVP slice, Go len. -/
def AVPList.length : AVPList → Nat
  | .nil => 0
  | .cons _ t => t.length + 1

/-- NewRequest from message.go: version 1, the request flag 0x80, application 0, and MessageLength set to DIAMETER_HEADER_SIZE plus len(avps), the number of AVPs.  The randomly generated HopByHopID and EndToEndID are passed as parameters. -/
def NewRequest (commandCode : Nat) (avps : AVPList) (hopByHopID endToEndID : Nat) :
    DiameterMessage :=
  ⟨⟨1, 20 + avps.length, 128, commandCode, 0, hopByHopID, endToEndID⟩, avps⟩

/-- NewResponseFromRequest from message.go: version 1, the response flags 0x00, command code and the three identifiers copied from the request, MessageLength set to 20 plus the number of AVPs. -/
def NewResponseFromRequest (request : DiameterMessage) (avps : AVPList) : DiameterMessage :=
  ⟨⟨1, 20 + avps.length, 0, request.header.commandCode, request.header.applicationID,
    request.header.hopByHopID, request.header.endToEndID⟩, avps⟩

/-- The scan inside GetResultCode from codes.go: the first AVP with code 268 whose payload type-asserts to Unsigned32; AVPs with code 268 but another payload type are skipped. -/
def getResultCodeAux : AVPList → Option Nat
  | .nil => none
  | .cons a rest =>
    if a.code = 268 then
      match a.data with
      | .unsigned32 v => some v
      | _ => getResultCodeAux rest
    else getResultCodeAux rest

/-- GetResultCode from codes.go: the value of the first Result-Code AVP, or the not-found error. -/
def GetResultCode (msg : DiameterMessage) : Except String Nat :=
  match getResultCodeAux msg.avps with
  | some v => .ok v
  | none => .error "Result-Code AVP not found"

/-- The possible outcomes of ReadCEA: success with the AVP list, the invalid-command-code error, the propagated Result-Code lookup error, or the failure branch with the non-2001 code. -/
inductive CEAResult : Type where
  | ok (avps : AVPList)
  | invalidCommandCode
  | resultCodeError (msg : String)
  | ceaFailed (code : Nat)
deriving DecidableEq, Repr

/-- ReadCEA from message.go: reject a command code other than 257 with InvalidCommandCodeError, propagate a GetResultCode failure, reject a Result-Code other than 2001, otherwise return the AVPs.  CommandFlags are never examined. -/
def ReadCEA (cea : DiameterMessage) : CEAResult :=
  if cea.header.commandCode ≠ 257 then .invalidCommandCode
  else
    match GetResultCode cea with
    | .error e => .resultCodeError e
    | .ok rc =>
      if rc ≠ 2001 then .ceaFailed rc
      else .ok cea.avps

/-- A transition of the FSM of state/fsm.go: source and target states, the event, and the optional action taking the (possibly nil) message and returning an optional error. -/
structure FSMTransition : Type where
  fromState : Int
  toState : Int
  event : Int
  action : Option (Option DiameterMessage → Option String)

/-- The FSM of state/fsm.go: the current state and the two-level transition map from state to event to transition.  A missing inner map and a missing entry are both modelled by none. -/
structure FSM : Type where
  state : Int
  transitions : Int → Option (Int → Option FSMTransition)

/-- The outcomes of FSM.Trigger: success, the no-transition-for-state error, the no-transition-for-event error (both built from errNoTransitionRegisteredForState), or the error returned by the transition action. -/
inductive TriggerResult : Type where
  | ok
  | noTransitionForState (s : Int)
  | noTransitionForEvent (s e : Int)
  | actionFailed (e : String)
deriving DecidableEq

/-- FSM.Trigger from state/fsm.go: look up the transition map for the current state, then the transition for the event; run the action when present; only when no error occurred is the state set to the transition target.  The pair returned is the Go error value together with the FSM after the call. -/
def FSM.Trigger (f : FSM) (event : Int) (msg : Option DiameterMessage) :
    TriggerResult × FSM :=
  match f.transitions f.state with
  | none => (.noTransitionForState f.state, f)
  | some forState =>
    match forState event with
    | none => (.noTransitionForEvent f.state event, f)
    | some t =>
      match t.action with
      | none => (.ok, ⟨t.toState, f.transitions⟩)
      | some act =>
        match act msg with
        | some e => (.actionFailed e, f)
        | none => (.ok, ⟨t.toState, f.transitions⟩)

/-!  Theorems settling the claims. -/

/-- C1.  The claimed AVP round-trip law fails on the code: for the vendor-flagged AVP with code 268, flags 0x80, length 16, VendorID 0 and Unsigned32 payload 2001, encoding succeeds, but decoding the encoded bytes yields an AVP whose payload is Unsigned32 0, because DecodeAVP reads the VendorID field without advancing its byte counter and therefore hands the four VendorID bytes to the payload decoder together with the payload. -/
theorem C1_avp_roundtrip_vendor_bug :
    AVP.encode (.mk 268 128 16 0 (.unsigned32 2001)) =
      .ok [0, 0, 1, 12, 128, 0, 0, 16, 0, 0, 0, 0, 209, 7, 0, 0] ∧
    DecodeAVP [0, 0, 1, 12, 128, 0, 0, 16, 0, 0, 0, 0, 209, 7, 0, 0] =
      .ok (.mk 268 128 16 0 (.unsigned32 0)) ∧
    AVP.mk 268 128 16 0 (.unsigned32 0) ≠ AVP.mk 268 128 16 0 (.unsigned32 2001) :=
  ⟨rfl, rfl, by decide⟩

/-- C2.  The claimed message round-trip law fails on the code: a structurally valid version-1 message carrying the vendor-flagged Result-Code AVP encodes successfully, but decoding the encoded bytes returns a message whose AVP payload is Unsigned32 0 instead of 2001, for the reason recorded at C1. -/
theorem C2_message_roundtrip_vendor_bug :
    DiameterMessage.encode ⟨⟨1, 36, 128, 257, 0, 17, 34⟩,
        .cons (.mk 268 128 16 0 (.unsigned32 2001)) .nil⟩ =
      .ok [1, 0, 0, 36, 128, 0, 1, 1, 0, 0, 0, 0, 0, 0, 0, 17, 0, 0, 0, 34,
           0, 0, 1, 12, 128, 0, 0, 16, 0, 0, 0, 0, 209, 7, 0, 0] ∧
    DecodeMessage [1, 0, 0, 36, 128, 0, 1, 1, 0, 0, 0, 0, 0, 0, 0, 17, 0, 0, 0, 34,
           0, 0, 1, 12, 128, 0, 0, 16, 0, 0, 0, 0, 209, 7, 0, 0] =
      .ok ⟨⟨1, 36, 128, 257, 0, 17, 34⟩, .cons (.mk 268 128 16 0 (.unsigned32 0)) .nil⟩ ∧
    (DiameterMessage.mk ⟨1, 36, 128, 257, 0, 17, 34⟩
        (.cons (.mk 268 128 16 0 (.unsigned32 0)) .nil)) ≠
      ⟨⟨1, 36, 128, 257, 0, 17, 34⟩, .cons (.mk 268 128 16 0 (.unsigned32 2001)) .nil⟩ :=
  ⟨rfl, rfl, by decide⟩

/-- C3.  The MessageLength invariant fails on the code: NewRequest with a single Result-Code AVP of AVPlength 12 sets MessageLength to 20 plus the number of AVPs, giving 21, while encoding the message produces 32 bytes; the code counts AVPs where the claim requires encoded bytes. -/
theorem C3_messageLength_counts_avps :
    (NewRequest 257 (.cons (.mk 268 64 12 0 (.unsigned32 2001)) .nil) 0 0).header.messageLength
      = 21 ∧
    DiameterMessage.encode (NewRequest 257 (.cons (.mk 268 64 12 0 (.unsigned32 2001)) .nil) 0 0)
      = .ok [1, 0, 0, 21, 128, 0, 1, 1, 0, 0, 0, 0, 0, 0, 0, 0, 0, 0, 0, 0,
             0, 0, 1, 12, 64, 0, 0, 12, 209, 7, 0, 0] ∧
    ([1, 0, 0, 21, 128, 0, 1, 1, 0, 0, 0, 0, 0, 0, 0, 0, 0, 0, 0, 0,
      0, 0, 1, 12, 64, 0, 0, 12, 209, 7, 0, 0] : Bytes).length = 32 ∧
    (21 : Nat) ≠ 32 :=
  ⟨rfl, rfl, rfl, by decide⟩

/-- C4.  The claimed encoding fails on the code: the AVP with code 268, flags 0x40, length 12 and Unsigned32 payload 2001 encodes with the header in network byte order but the payload emitted least significant byte first by encode32, producing D1 07 00 00 where the claim (and the code comment on Unsigned32) requires 00 00 07 D1. -/
theorem C4_unsigned32_payload_little_endian :
    AVP.encode (.mk 268 64 12 0 (.unsigned32 2001)) =
      .ok [0, 0, 1, 12, 64, 0, 0, 12, 209, 7, 0, 0] ∧
    [0, 0, 1, 12, 64, 0, 0, 12, 209, 7, 0, 0] ≠
      ([0, 0, 1, 12, 64, 0, 0, 12, 0, 0, 7, 209] : Bytes) :=
  ⟨rfl, by decide⟩

/-- C5 counterexample.  The claim that an AVP with an unregistered code decodes as a raw OctetString fails: the encodable AVP with unregistered code 999 encodes successfully, but decoding its bytes returns the Unsupported AVP code error rather than any value. -/
theorem C5_unknown_code_decode_error :
    AVP.encode (.mk 999 64 12 0 (.unsigned32 7)) =
      .ok [0, 0, 3, 231, 64, 0, 0, 12, 7, 0, 0, 0] ∧
    DecodeAVP [0, 0, 3, 231, 64, 0, 0, 12, 7, 0, 0, 0] = .err "Unsupported AVP code" :=
  ⟨rfl, rfl⟩

/-- C6 counterexample.  The claim that every sequence containing the code point 0 is rejected with InvalidUTF8 fails: the single NUL byte is accepted by UTF8String.Decode, because Go utf8.Valid accepts U+0000. -/
theorem C6_nul_byte_accepted : utf8StringDecode [0] = .ok [0] := by
  simp [utf8StringDecode, utf8Valid, utf8Step]

/-- C7 counterexample.  The claim that every encoded AVP occupies a whole number of 4-octet words fails for DiameterURI: a message with one DiameterURI AVP of 5 data bytes encodes to 33 bytes, the AVP occupying the final 13 bytes, which is not a multiple of 4; DiameterURI does not embed OctetString, so the reflection check IsDerivedFromOctetString never pads it. -/
theorem C7_diameterURI_not_padded :
    DiameterMessage.encode ⟨⟨1, 33, 128, 257, 0, 0, 0⟩,
        .cons (.mk 282 64 13 0 (.diameterURI [97, 97, 97, 97, 97])) .nil⟩ =
      .ok [1, 0, 0, 33, 128, 0, 1, 1, 0, 0, 0, 0, 0, 0, 0, 0, 0, 0, 0, 0,
           0, 0, 1, 26, 64, 0, 0, 13, 97, 97, 97, 97, 97] ∧
    ([1, 0, 0, 33, 128, 0, 1, 1, 0, 0, 0, 0, 0, 0, 0, 0, 0, 0, 0, 0,
      0, 0, 1, 26, 64, 0, 0, 13, 97, 97, 97, 97, 97] : Bytes).length - 20 = 13 ∧
    (13 : Nat) % 4 ≠ 0 :=
  ⟨rfl, rfl, by decide⟩

/-- C8.  The claim that DecodeAVP and DecodeMessage never panic fails on the code: on the 8-byte input whose AVP Length field is 5, DecodeAVP evaluates the slice expression data[8:5], a Go runtime fault, and DecodeMessage on a 20-byte header followed by those bytes propagates the same fault. -/
theorem C8_decode_crashes_on_short_length :
    DecodeAVP [0, 0, 1, 12, 64, 0, 0, 5] = .crash ∧
    DecodeMessage [1, 0, 0, 28, 128, 0, 1, 1, 0, 0, 0, 0, 0, 0, 0, 17, 0, 0, 0, 34,
                   0, 0, 1, 12, 64, 0, 0, 5] = .crash :=
  ⟨rfl, rfl⟩

/-- ToBytes of width four, written as an explicit list. -/
theorem ToBytes_four (v : Nat) :
    ToBytes v 4 = [v / 16777216 % 256, v / 65536 % 256, v / 256 % 256, v % 256] := by
  simp [ToBytes, List.range_succ]

/-- ToBytes of width three, written as an explicit list. -/
theorem ToBytes_three (v : Nat) :
    ToBytes v 3 = [v / 65536 % 256, v / 256 % 256, v % 256] := by
  simp [ToBytes, List.range_succ]

/-- Reading back a 4-byte big-endian field recovers any uint32 value. -/
theorem FromBytes_ToBytes_four (v : Nat) (h : v < 4294967296) :
    FromBytes (ToBytes v 4) = v := by
  rw [ToBytes_four]
  show ((((0 * 256 + v / 16777216 % 256 % 256) % 4294967296 * 256 + v / 65536 % 256 % 256) %
    4294967296 * 256 + v / 256 % 256 % 256) % 4294967296 * 256 + v % 256 % 256) %
    4294967296 = v
  omega

/-- Reading back a 3-byte big-endian field recovers any 24-bit value. -/
theorem FromBytes_ToBytes_three (v : Nat) (h : v < 16777216) :
    FromBytes (ToBytes v 3) = v := by
  rw [ToBytes_three]
  show (((0 * 256 + v / 65536 % 256 % 256) % 4294967296 * 256 + v / 256 % 256 % 256) %
    4294967296 * 256 + v % 256 % 256) % 4294967296 = v
  omega

/-- Taking the first four bytes of a buffer with at least four explicit bytes. -/
theorem take4_cons (b0 b1 b2 b3 : Nat) (rest : Bytes) :
    (b0 :: b1 :: b2 :: b3 :: rest).take 4 = [b0, b1, b2, b3] := rfl

/-- Reading byte 4 of a buffer with at least five explicit bytes. -/
theorem getD4_cons (b0 b1 b2 b3 b4 : Nat) (rest : Bytes) :
    (b0 :: b1 :: b2 :: b3 :: b4 :: rest).getD 4 0 = b4 := rfl

/-- Reading bytes 5 to 7 of a buffer with at least eight explicit bytes. -/
theorem drop5take3_cons (b0 b1 b2 b3 b4 b5 b6 b7 : Nat) (rest : Bytes) :
    ((b0 :: b1 :: b2 :: b3 :: b4 :: b5 :: b6 :: b7 :: rest).drop 5).take 3 = [b5, b6, b7] := rfl

/-- DecodeAVP on a well-formed vendor-flagged header whose code is not in the registry stops with the Unsupported AVP code error. -/
theorem decodeAVP_unknown_vendor (c fl l v : Nat) (B : Bytes)
    (hreg : avpTypeMap c = none) (hcode : c < 4294967296)
    (hlen24 : l < 16777216) (hlen8 : 8 ≤ l)
    (hfit : l ≤ 12 + B.length) :
    DecodeAVP (ToBytes c 4 ++ [fl] ++ ToBytes l 3 ++ ToBytes v 4 ++ B) =
      .err "Unsupported AVP code" := by
  have hc : FromBytes [c / 16777216 % 256, c / 65536 % 256, c / 256 % 256, c % 256] = c := by
    rw [← ToBytes_four]
    exact FromBytes_ToBytes_four c hcode
  have hl : FromBytes [l / 65536 % 256, l / 256 % 256, l % 256] = l := by
    rw [← ToBytes_three]
    exact FromBytes_ToBytes_three l hlen24
  rw [ToBytes_four, ToBytes_three, ToBytes_four]
  simp only [List.cons_append, List.nil_append, List.append_assoc]
  rw [DecodeAVP]
  simp only [decodeAVPFuel, List.length_cons]
  simp only [take4_cons, getD4_cons, drop5take3_cons, hc, hl]
  rw [if_neg (show ¬ (B.length + 1 + 1 + 1 + 1 + 1 + 1 + 1 + 1 + 1 + 1 + 1 + 1 < 8) by omega)]
  rw [if_neg (show ¬ (B.length + 1 + 1 + 1 + 1 + 1 + 1 + 1 + 1 + 1 + 1 + 1 + 1 < l) by omega)]
  rw [if_neg (show ¬ (fl &&& 128 = 128 ∧
    B.length + 1 + 1 + 1 + 1 + 1 + 1 + 1 + 1 + 1 + 1 + 1 + 1 < 12) by rintro ⟨-, h2⟩; omega)]
  simp only [goSlice, List.length_cons]
  rw [if_pos (show 8 ≤ l ∧ l ≤ B.length + 1 + 1 + 1 + 1 + 1 + 1 + 1 + 1 + 1 + 1 + 1 + 1 from
    ⟨hlen8, by omega⟩)]
  rw [hreg]

/-- DecodeAVP on a well-formed vendor-free header whose code is not in the registry stops with the Unsupported AVP code error. -/
theorem decodeAVP_unknown_novendor (c fl l : Nat) (B : Bytes)
    (hreg : avpTypeMap c = none) (hcode : c < 4294967296)
    (hlen24 : l < 16777216) (hlen8 : 8 ≤ l) (hV : ¬ fl &&& 128 = 128)
    (hfit : l ≤ 8 + B.length) :
    DecodeAVP (ToBytes c 4 ++ [fl] ++ ToBytes l 3 ++ B) =
      .err "Unsupported AVP code" := by
  have hc : FromBytes [c / 16777216 % 256, c / 65536 % 256, c / 256 % 256, c % 256] = c := by
    rw [← ToBytes_four]
    exact FromBytes_ToBytes_four c hcode
  have hl : FromBytes [l / 65536 % 256, l / 256 % 256, l % 256] = l := by
    rw [← ToBytes_three]
    exact FromBytes_ToBytes_three l hlen24
  rw [ToBytes_four, ToBytes_three]
  simp only [List.cons_append, List.nil_append, List.append_assoc]
  rw [DecodeAVP]
  simp only [decodeAVPFuel, List.length_cons]
  simp only [take4_cons, getD4_cons, drop5take3_cons, hc, hl]
  rw [if_neg (show ¬ (B.length + 1 + 1 + 1 + 1 + 1 + 1 + 1 + 1 < 8) by omega)]
  rw [if_neg (show ¬ (B.length + 1 + 1 + 1 + 1 + 1 + 1 + 1 + 1 < l) by omega)]
  rw [if_neg (show ¬ (fl &&& 128 = 128 ∧
    B.length + 1 + 1 + 1 + 1 + 1 + 1 + 1 + 1 < 12) by rintro ⟨h1, -⟩; exact hV h1)]
  simp only [goSlice, List.length_cons]
  rw [if_pos (show 8 ≤ l ∧ l ≤ B.length + 1 + 1 + 1 + 1 + 1 + 1 + 1 + 1 from
    ⟨hlen8, by omega⟩)]
  rw [hreg]

/-- C5 (amended).  An AVP whose code is not registered does not decode at all: for every AVP with an unregistered code and a well-formed header (byte-sized flags, 24-bit length of at least 8 covered by the encoding), decoding its own encoding fails with the Unsupported AVP code error; there is no OctetString fallback and no round-trip. -/
theorem C5_unknown_code_never_decodes (a : AVP) (bs : Bytes)
    (hreg : avpTypeMap a.code = none) (hcode : a.code < 4294967296)
    (hfl : a.flags < 256) (hlen24 : a.avpLength < 16777216) (hlen8 : 8 ≤ a.avpLength)
    (henc : AVP.encode a = .ok bs) (hfit : a.avpLength ≤ bs.length) :
    DecodeAVP bs = .err "Unsupported AVP code" := by
  obtain ⟨c, fl, l, v, d⟩ := a
  simp only [AVP.code] at hreg hcode
  simp only [AVP.flags] at hfl
  simp only [AVP.avpLength] at hlen24 hlen8 hfit
  rw [AVP.encode] at henc
  cases hd : AVPData.encode d with
  | error e => rw [hd] at henc; cases henc
  | ok X =>
    rw [hd] at henc
    dsimp only at henc
    rw [Nat.mod_eq_of_lt hfl] at henc
    by_cases hV : fl &&& 128 = 128
    · rw [if_pos hV] at henc
      by_cases hder : IsDerivedFromOctetString d = true
      · rw [if_pos hder] at henc
        injection henc with hbs
        subst hbs
        have hfit2 : l ≤ 12 + (X ++ List.replicate (getPadding X.length) 0).length := by
          simp only [ToBytes_four, ToBytes_three] at hfit
          simp at hfit
          simp
          omega
        have := decodeAVP_unknown_vendor c fl l v
          (X ++ List.replicate (getPadding X.length) 0) hreg hcode hlen24 hlen8 hfit2
        simpa [List.append_assoc] using this
      · rw [if_neg hder] at henc
        injection henc with hbs
        subst hbs
        have hfit2 : l ≤ 12 + X.length := by
          simp only [ToBytes_four, ToBytes_three] at hfit
          simp at hfit
          omega
        have := decodeAVP_unknown_vendor c fl l v X hreg hcode hlen24 hlen8 hfit2
        simpa [List.append_assoc] using this
    · rw [if_neg hV] at henc
      by_cases hder : IsDerivedFromOctetString d = true
      · rw [if_pos hder] at henc
        injection henc with hbs
        subst hbs
        have hfit2 : l ≤ 8 + (X ++ List.replicate (getPadding X.length) 0).length := by
          simp only [ToBytes_four, ToBytes_three] at hfit
          simp at hfit
          simp
          omega
        have := decodeAVP_unknown_novendor c fl l
          (X ++ List.replicate (getPadding X.length) 0) hreg hcode hlen24 hlen8 hV hfit2
        simpa [List.append_assoc] using this
      · rw [if_neg hder] at henc
        injection henc with hbs
        subst hbs
        have hfit2 : l ≤ 8 + X.length := by
          simp only [ToBytes_four, ToBytes_three] at hfit
          simp at hfit
          omega
        have := decodeAVP_unknown_novendor c fl l X hreg hcode hlen24 hlen8 hV hfit2
        simpa [List.append_assoc] using this

/-- C5 witness: the amended theorem applied to the concrete AVP with unregistered code 999, flags 0, length 12 and Unsigned32 payload 7. -/
theorem C5_unknown_code_witness :
    DecodeAVP [0, 0, 3, 231, 0, 0, 0, 12, 7, 0, 0, 0] = .err "Unsupported AVP code" :=
  C5_unknown_code_never_decodes (.mk 999 0 12 0 (.unsigned32 7))
    [0, 0, 3, 231, 0, 0, 0, 12, 7, 0, 0, 0] (by decide) (by decide) (by decide) (by decide)
    (by decide) rfl (by decide)

/-- Replace the CommandFlags of a message, leaving every other field alone; used to state that ReadCEA never inspects the flags. -/
def withCommandFlags (m : DiameterMessage) (f : Nat) : DiameterMessage :=
  ⟨⟨m.header.version, m.header.messageLength, f, m.header.commandCode,
    m.header.applicationID, m.header.hopByHopID, m.header.endToEndID⟩, m.avps⟩

/-- C9.  Whenever FSM.Trigger returns an error the state is unchanged: a missing state row or a missing event entry yields the corresponding no-transition error with the FSM untouched; a failing action returns that error without setting the state; and on success the state becomes the transition target. -/
theorem C9_trigger_error_preserves_state (f : FSM) (e : Int) (m : Option DiameterMessage) :
    ((FSM.Trigger f e m).1 ≠ .ok → (FSM.Trigger f e m).2.state = f.state) ∧
    (f.transitions f.state = none →
      FSM.Trigger f e m = (.noTransitionForState f.state, f)) ∧
    (∀ forState, f.transitions f.state = some forState → forState e = none →
      FSM.Trigger f e m = (.noTransitionForEvent f.state e, f)) ∧
    (∀ forState t act errMsg, f.transitions f.state = some forState → forState e = some t →
      t.action = some act → act m = some errMsg →
      FSM.Trigger f e m = (.actionFailed errMsg, f)) ∧
    (∀ forState t, f.transitions f.state = some forState → forState e = some t →
      (FSM.Trigger f e m).1 = .ok → (FSM.Trigger f e m).2.state = t.toState) := by
  refine ⟨?_, ?_, ?_, ?_, ?_⟩
  · intro h
    cases h1 : f.transitions f.state with
    | none => simp [FSM.Trigger, h1]
    | some fs =>
      cases h2 : fs e with
      | none => simp [FSM.Trigger, h1, h2]
      | some t =>
        cases h3 : t.action with
        | none => simp [FSM.Trigger, h1, h2, h3] at h
        | some act =>
          cases h4 : act m with
          | none => simp [FSM.Trigger, h1, h2, h3, h4] at h
          | some errMsg => simp [FSM.Trigger, h1, h2, h3, h4]
  · intro h
    simp [FSM.Trigger, h]
  · intro fs h1 h2
    simp [FSM.Trigger, h1, h2]
  · intro fs t act errMsg h1 h2 h3 h4
    simp [FSM.Trigger, h1, h2, h3, h4]
  · intro fs t h1 h2 hok
    cases h3 : t.action with
    | none => simp [FSM.Trigger, h1, h2, h3]
    | some act =>
      cases h4 : act m with
      | none => simp [FSM.Trigger, h1, h2, h3, h4]
      | some errMsg => simp [FSM.Trigger, h1, h2, h3, h4] at hok

/-- A fresh FSM in state 0 with no registered transitions, used as the C9 witness. -/
def fsm0 : FSM := ⟨0, fun _ => none⟩

/-- C9 witness: triggering event 5 on an FSM with no transitions returns the no-transition error and leaves the FSM unchanged. -/
theorem C9_trigger_witness : FSM.Trigger fsm0 5 none = (.noTransitionForState 0, fsm0) :=
  (C9_trigger_error_preserves_state fsm0 5 none).2.1 rfl

/-- C10.  ReadCEA never inspects CommandFlags: its result is invariant under any replacement of the flags byte; it returns the invalid-command-code error exactly when the command code differs from 257; and when the code is 257 and the Result-Code scan finds 2001 it returns the AVP list, request bit or not. -/
theorem C10_readCEA_ignores_flags (msg : DiameterMessage) :
    (∀ fl, ReadCEA (withCommandFlags msg fl) = ReadCEA msg) ∧
    (msg.header.commandCode ≠ 257 → ReadCEA msg = .invalidCommandCode) ∧
    (msg.header.commandCode = 257 → ReadCEA msg ≠ .invalidCommandCode) ∧
    (msg.header.commandCode = 257 → getResultCodeAux msg.avps = some 2001 →
      ReadCEA msg = .ok msg.avps) := by
  refine ⟨fun fl => rfl, fun h => by simp [ReadCEA, h], fun h => ?_, fun h h2 => ?_⟩
  · simp only [ReadCEA, h]
    cases hg : GetResultCode msg with
    | error e => simp
    | ok rc =>
      by_cases hrc : rc = 2001 <;> simp [hrc]
  · simp [ReadCEA, h, GetResultCode, h2]

/-- C10 witness: a message whose header carries command code 257 with the request bit set (flags 0x80) and a Result-Code AVP of 2001 is accepted by ReadCEA, which returns its AVP list. -/
theorem C10_readCEA_witness :
    ReadCEA ⟨⟨1, 32, 128, 257, 0, 0, 0⟩, .cons (.mk 268 64 12 0 (.unsigned32 2001)) .nil⟩ =
      .ok (.cons (.mk 268 64 12 0 (.unsigned32 2001)) .nil) :=
  (C10_readCEA_ignores_flags
    ⟨⟨1, 32, 128, 257, 0, 0, 0⟩, .cons (.mk 268 64 12 0 (.unsigned32 2001)) .nil⟩).2.2.2
    rfl rfl

mutual
/-- True when no DiameterURI payload occurs in the data, recursively through Grouped members. -/
def AVPData.uriFree : AVPData → Bool
  | .diameterURI _ => false
  | .grouped l => AVPList.uriFree l
  | _ => true
/-- True when no DiameterURI payload occurs anywhere in the AVP. -/
def AVP.uriFree : AVP → Bool
  | .mk _ _ _ _ d => AVPData.uriFree d
/-- True when no DiameterURI payload occurs in any AVP of the list. -/
def AVPList.uriFree : AVPList → Bool
  | .nil => true
  | .cons a t => AVP.uriFree a && AVPList.uriFree t
end

/-- The number of leading payload bytes that carry content; every encoded byte of the payload from this offset on is zero filler or padding.  The second argument is the length of the encoded payload and is consulted only for Grouped, whose members carry their padding internally. -/
def rawDataLen : AVPData → Nat → Nat
  | .octetString d _, _ => d.length
  | .unsigned32 _, _ => 4
  | .unsigned64 _, _ => 8
  | .utf8String d, _ => d.length
  | .diameterIdentity d, _ => d.length
  | .diameterURI d, _ => d.length
  | .address isIPv4 _, _ => if isIPv4 then 6 else 18
  | .time _, _ => 4
  | .grouped _, n => n

/-- Every position of a zero-filled buffer reads zero. -/
theorem getD_replicate_zero (n i : Nat) : (List.replicate n 0).getD i 0 = 0 := by
  by_cases h : i < n
  · simp [List.getD, List.getElem?_replicate, h]
  · exact List.getD_eq_default _ _ (by simpa using Nat.le_of_not_lt h)

/-- A successful To4 conversion yields four bytes. -/
theorem ipTo4_length (ip ip4 : Bytes) (h : ipTo4 ip = some ip4) : ip4.length = 4 := by
  unfold ipTo4 at h
  split_ifs at h with h1 h2
  · cases h; omega
  · cases h; simp [h2.1]

/-- A successful To16 conversion yields sixteen bytes. -/
theorem ipTo16_length (ip ip16 : Bytes) (h : ipTo16 ip = some ip16) : ip16.length = 16 := by
  unfold ipTo16 at h
  split_ifs at h with h1 h2
  · cases h; omega
  · cases h; simp [h2]

mutual
/-- Payload-level alignment: for every URI-free payload, the encoded payload is either of a derived type (so the AVP layer pads it) or already a multiple of 4 bytes, and every encoded byte past the content is zero. -/
theorem avpData_aligned : ∀ (d : AVPData) (ds : Bytes), AVPData.uriFree d = true →
    AVPData.encode d = .ok ds →
    (IsDerivedFromOctetString d = true ∨ ds.length % 4 = 0) ∧
    (∀ i, rawDataLen d ds.length ≤ i → ds.getD i 0 = 0)
  | .octetString data minLength, ds, _, henc => by
    rw [AVPData.encode] at henc
    injection henc with hds
    subst hds
    constructor
    · right
      simp only [List.length_append, List.length_replicate]
      unfold getPadding
      split
      all_goals omega
    · intro i hi
      simp only [rawDataLen] at hi
      rw [List.getD_append_right _ _ _ _ hi]
      exact getD_replicate_zero _ _
  | .unsigned32 v, ds, _, henc => by
    rw [AVPData.encode] at henc
    injection henc with hds
    subst hds
    refine ⟨Or.inr (by simp [encode32]), fun i hi => ?_⟩
    simp only [rawDataLen] at hi
    refine List.getD_eq_default _ _ ?_
    simp only [encode32, List.length_map, List.length_range]
    omega
  | .unsigned64 v, ds, _, henc => by
    rw [AVPData.encode] at henc
    injection henc with hds
    subst hds
    refine ⟨Or.inr (by simp [encode64]), fun i hi => ?_⟩
    simp only [rawDataLen] at hi
    refine List.getD_eq_default _ _ ?_
    simp only [encode64, List.length_map, List.length_range]
    omega
  | .utf8String data, ds, _, henc => by
    rw [AVPData.encode] at henc
    injection henc with hds
    subst hds
    exact ⟨Or.inl rfl, fun i hi => List.getD_eq_default _ _ (by simpa [rawDataLen] using hi)⟩
  | .diameterIdentity data, ds, _, henc => by
    rw [AVPData.encode] at henc
    injection henc with hds
    subst hds
    exact ⟨Or.inl rfl, fun i hi => List.getD_eq_default _ _ (by simpa [rawDataLen] using hi)⟩
  | .diameterURI data, ds, hfree, henc => by
    simp [AVPData.uriFree] at hfree
  | .address isV4 ip, ds, _, henc => by
    rw [AVPData.encode] at henc
    cases isV4 with
    | true =>
      rw [if_pos rfl] at henc
      cases hip : ipTo4 ip with
      | none => rw [hip] at henc; cases henc
      | some ip4 =>
        rw [hip] at henc
        injection henc with hds
        subst hds
        have hlen4 := ipTo4_length ip ip4 hip
        refine ⟨Or.inl rfl, fun i hi => ?_⟩
        norm_num [rawDataLen] at hi
        rw [List.getD_append_right _ _ _ _ (by simp [hlen4]; omega)]
        exact getD_replicate_zero _ _
    | false =>
      rw [if_neg (by simp)] at henc
      cases hip : ipTo16 ip with
      | none => rw [hip] at henc; cases henc
      | some ip16 =>
        rw [hip] at henc
        injection henc with hds
        subst hds
        have hlen16 := ipTo16_length ip ip16 hip
        refine ⟨Or.inl rfl, fun i hi => ?_⟩
        norm_num [rawDataLen] at hi
        rw [List.getD_append_right _ _ _ _ (by simp [hlen16]; omega)]
        exact getD_replicate_zero _ _
  | .time data, ds, _, henc => by
    rw [AVPData.encode] at henc
    split at henc
    · injection henc with hds
      subst hds
      refine ⟨Or.inl rfl, fun i hi => ?_⟩
      simp only [rawDataLen] at hi
      exact List.getD_eq_default _ _ (by omega)
    · cases henc
  | .grouped l, ds, hfree, henc => by
    rw [AVPData.encode] at henc
    have hfree2 : AVPList.uriFree l = true := by
      simpa [AVPData.uriFree] using hfree
    refine ⟨Or.inr (avpList_aligned l ds hfree2 henc), fun i hi => ?_⟩
    simp only [rawDataLen] at hi
    exact List.getD_eq_default _ _ hi
/-- AVP-level alignment: every URI-free AVP encodes to a multiple of 4 bytes, and every byte past the header and the payload content is zero. -/
theorem avp_aligned : ∀ (a : AVP) (bs : Bytes), AVP.uriFree a = true →
    AVP.encode a = .ok bs → bs.length % 4 = 0 ∧
    (∀ i, a.getHeaderLength + rawDataLen a.data (bs.length - a.getHeaderLength) ≤ i →
      bs.getD i 0 = 0)
  | .mk c fl l v d, bs, hfree, henc => by
    have hfree2 : AVPData.uriFree d = true := by
      simpa [AVP.uriFree] using hfree
    rw [AVP.encode] at henc
    cases hd : AVPData.encode d with
    | error e => rw [hd] at henc; cases henc
    | ok ds =>
      rw [hd] at henc
      dsimp only at henc
      obtain ⟨halign, hzero⟩ := avpData_aligned d ds hfree2 hd
      have hhl : (AVP.mk c fl l v d).getHeaderLength = if fl &&& 128 = 128 then 12 else 8 := by
        simp [AVP.getHeaderLength, AVP.isFlagSet, AVP.flags]
      have hhdrlen : (ToBytes c 4 ++ [fl % 256] ++ ToBytes l 3 ++
          (if fl &&& 128 = 128 then ToBytes v 4 else [])).length =
          if fl &&& 128 = 128 then 12 else 8 := by
        by_cases hV : fl &&& 128 = 128
        · simp [hV, ToBytes]
        · simp [hV, ToBytes]
      have hdata : (AVP.mk c fl l v d).data = d := rfl
      by_cases hder : IsDerivedFromOctetString d = true
      · rw [if_pos hder] at henc
        injection henc with hbs
        subst hbs
        have hdarg : ∀ n m : Nat, rawDataLen d n = rawDataLen d m := by
          intro n m
          cases d
          case grouped => simp [IsDerivedFromOctetString] at hder
          all_goals rfl
        constructor
        · simp only [List.length_append, hhdrlen, List.length_replicate]
          unfold getPadding
          by_cases hV : fl &&& 128 = 128
          · simp only [if_pos hV]
            omega
          · simp only [if_neg hV]
            omega
        · intro i hi
          rw [hdata, hhl, hdarg _ ds.length] at hi
          by_cases hcase : i < ((ToBytes c 4 ++ [fl % 256] ++ ToBytes l 3 ++
              (if fl &&& 128 = 128 then ToBytes v 4 else [])) ++ ds).length
          · rw [List.getD_append _ _ _ _ hcase]
            rw [List.getD_append_right _ _ _ _ (by rw [hhdrlen]; omega)]
            refine hzero _ ?_
            rw [hhdrlen]
            omega
          · rw [List.getD_append_right _ _ _ _ (Nat.le_of_not_lt hcase)]
            exact getD_replicate_zero _ _
      · rw [if_neg hder] at henc
        injection henc with hbs
        subst hbs
        have halign2 : ds.length % 4 = 0 := by
          rcases halign with h | h
          · exact absurd h hder
          · exact h
        constructor
        · simp only [List.length_append, hhdrlen]
          by_cases hV : fl &&& 128 = 128 <;> simp only [hV, if_true, if_false] <;> omega
        · intro i hi
          rw [hdata, hhl] at hi
          have harg : ((ToBytes c 4 ++ [fl % 256] ++ ToBytes l 3 ++
              (if fl &&& 128 = 128 then ToBytes v 4 else [])) ++ ds).length -
              (if fl &&& 128 = 128 then 12 else 8) = ds.length := by
            simp only [List.length_append, hhdrlen]
            omega
          rw [harg] at hi
          rw [List.getD_append_right _ _ _ _ (by rw [hhdrlen]; omega)]
          refine hzero _ ?_
          rw [hhdrlen]
          omega
/-- List-level alignment: the concatenation of the encodings of URI-free AVPs is a multiple of 4 bytes, so each AVP in a message starts on a 4-octet boundary. -/
theorem avpList_aligned : ∀ (l : AVPList) (bs : Bytes), AVPList.uriFree l = true →
    AVPList.encode l = .ok bs → bs.length % 4 = 0
  | .nil, bs, _, henc => by
    rw [AVPList.encode] at henc
    injection henc with hbs
    subst hbs
    rfl
  | .cons a t, bs, hfree, henc => by
    rw [AVPList.encode] at henc
    have hfa : AVP.uriFree a = true := by
      have := hfree
      simp [AVPList.uriFree, Bool.and_eq_true] at this
      exact this.1
    have hft : AVPList.uriFree t = true := by
      have := hfree
      simp [AVPList.uriFree, Bool.and_eq_true] at this
      exact this.2
    cases ha : AVP.encode a with
    | error e => rw [ha] at henc; cases henc
    | ok x =>
      rw [ha] at henc
      dsimp only at henc
      cases ht : AVPList.encode t with
      | error e => rw [ht] at henc; cases henc
      | ok y =>
        rw [ht] at henc
        injection henc with hbs
        subst hbs
        have h1 := (avp_aligned a x hfa ha).1
        have h2 := avpList_aligned t y hft ht
        simp only [List.length_append]
        omega
end

/-- C7 (amended).  Every encoded AVP whose payload is not DiameterURI (recursively, including Grouped members) occupies a whole number of 4-octet words, so the next AVP begins on a 4-octet boundary, and every byte appended after the AVP's payload content — minimum-length filler and alignment padding alike — is zero.  DiameterURI payloads are excluded: the reflection check IsDerivedFromOctetString does not recognise DiameterURI (its Go struct does not embed OctetString), so those AVPs are emitted without padding. -/
theorem C7_avp_encode_alignment (a : AVP) (bs : Bytes) (hfree : AVP.uriFree a = true)
    (henc : AVP.encode a = .ok bs) :
    bs.length % 4 = 0 ∧
    (∀ i, a.getHeaderLength + rawDataLen a.data (bs.length - a.getHeaderLength) ≤ i →
      bs.getD i 0 = 0) :=
  avp_aligned a bs hfree henc

/-- C7 witness: the alignment theorem applied to the Origin-Host AVP with a 5-byte UTF8String payload, whose encoding is 16 bytes with three zero padding octets. -/
theorem C7_alignment_witness :
    ([0, 0, 1, 8, 64, 0, 0, 13, 116, 101, 115, 116, 115, 0, 0, 0] : Bytes).length % 4 = 0 ∧
    (∀ i, (AVP.mk 264 64 13 0 (.utf8String [116, 101, 115, 116, 115])).getHeaderLength +
        rawDataLen (AVP.mk 264 64 13 0 (.utf8String [116, 101, 115, 116, 115])).data
          (([0, 0, 1, 8, 64, 0, 0, 13, 116, 101, 115, 116, 115, 0, 0, 0] : Bytes).length -
            (AVP.mk 264 64 13 0 (.utf8String [116, 101, 115, 116, 115])).getHeaderLength) ≤ i →
      ([0, 0, 1, 8, 64, 0, 0, 13, 116, 101, 115, 116, 115, 0, 0, 0] : Bytes).getD i 0 = 0) :=
  C7_avp_encode_alignment (.mk 264 64 13 0 (.utf8String [116, 101, 115, 116, 115])) _
    (by decide) rfl

/-- A Unicode scalar value: any code point up to U+10FFFF that is not a surrogate.  Go utf8.Valid accepts exactly sequences of encoded scalar values, U+0000 included. -/
def validScalar (c : Nat) : Bool := decide (c < 55296 ∨ (57344 ≤ c ∧ c ≤ 1114111))

/-- The RFC 3629 UTF-8 encoding of a scalar value, written with the shift arithmetic spelled out: one byte below 0x80, two below 0x800, three below 0x10000, four otherwise. -/
def encodeScalar (c : Nat) : List Nat :=
  if c < 128 then [c]
  else if c < 2048 then [192 + c / 64, 128 + c % 64]
  else if c < 65536 then [224 + c / 4096, 128 + c / 64 % 64, 128 + c % 64]
  else [240 + c / 262144, 128 + c / 4096 % 64, 128 + c / 64 % 64, 128 + c % 64]

/-- The specification the validator is proved against: a byte string is a chain when it is a concatenation of UTF-8 encodings of Unicode scalar values. -/
inductive Utf8Chain : List Nat → Prop where
  | nil : Utf8Chain []
  | cons (c : Nat) (rest : List Nat) : validScalar c = true → Utf8Chain rest →
      Utf8Chain (encodeScalar c ++ rest)

/-- Soundness of the encoder against the step function: for a scalar value, the validator step consumes exactly the bytes of its encoding. -/
theorem utf8Step_encodeScalar (c : Nat) (rest : List Nat) (hc : validScalar c = true) :
    ∃ b0 tl, encodeScalar c = b0 :: tl ∧ utf8Step b0 (tl ++ rest) = some rest := by
  simp only [validScalar, decide_eq_true_eq] at hc
  by_cases h1 : c < 128
  · refine ⟨c, [], by rw [encodeScalar, if_pos h1], ?_⟩
    rw [List.nil_append]
    unfold utf8Step
    rw [if_pos h1]
  · by_cases h2 : c < 2048
    · refine ⟨192 + c / 64, [128 + c % 64],
        by rw [encodeScalar, if_neg h1, if_pos h2], ?_⟩
      simp only [List.cons_append, List.nil_append]
      unfold utf8Step
      rw [if_neg (by omega), if_neg (by omega), if_pos (by omega)]
      simp only [takeCont]
      rw [if_pos (by simp only [inRange, decide_eq_true_eq]; omega)]
    · by_cases h3 : c < 65536
      · refine ⟨224 + c / 4096, [128 + c / 64 % 64, 128 + c % 64],
          by rw [encodeScalar, if_neg h1, if_neg h2, if_pos h3], ?_⟩
        simp only [List.cons_append, List.nil_append]
        unfold utf8Step
        rw [if_neg (by omega), if_neg (by omega), if_neg (by omega), if_pos (by omega)]
        by_cases hs1 : c < 4096
        · rw [if_pos (by omega), if_neg (by omega)]
          simp only [takeCont]
          rw [if_pos (by simp only [inRange, decide_eq_true_eq]; omega)]
          simp only [Option.some_bind]
          rw [if_pos (by simp only [inRange, decide_eq_true_eq]; omega)]
        · by_cases hs2 : 53248 ≤ c ∧ c < 57344
          · rw [if_neg (by omega), if_pos (by omega)]
            simp only [takeCont]
            rw [if_pos (by simp only [inRange, decide_eq_true_eq]; omega)]
            simp only [Option.some_bind]
            rw [if_pos (by simp only [inRange, decide_eq_true_eq]; omega)]
          · rw [if_neg (by omega), if_neg (by omega)]
            simp only [takeCont]
            rw [if_pos (by simp only [inRange, decide_eq_true_eq]; omega)]
            simp only [Option.some_bind]
            rw [if_pos (by simp only [inRange, decide_eq_true_eq]; omega)]
      · have h4 : c ≤ 1114111 := by omega
        refine ⟨240 + c / 262144, [128 + c / 4096 % 64, 128 + c / 64 % 64, 128 + c % 64],
          by rw [encodeScalar, if_neg h1, if_neg h2, if_neg h3], ?_⟩
        simp only [List.cons_append, List.nil_append]
        unfold utf8Step
        rw [if_neg (by omega), if_neg (by omega), if_neg (by omega), if_neg (by omega),
          if_pos (by omega)]
        by_cases hs1 : c < 262144
        · rw [if_pos (by omega), if_neg (by omega)]
          simp only [takeCont]
          rw [if_pos (by simp only [inRange, decide_eq_true_eq]; omega)]
          simp only [Option.some_bind]
          rw [if_pos (by simp only [inRange, decide_eq_true_eq]; omega)]
          simp only [Option.some_bind]
          rw [if_pos (by simp only [inRange, decide_eq_true_eq]; omega)]
        · by_cases hs2 : 1048576 ≤ c
          · rw [if_neg (by omega), if_pos (by omega)]
            simp only [takeCont]
            rw [if_pos (by simp only [inRange, decide_eq_true_eq]; omega)]
            simp only [Option.some_bind]
            rw [if_pos (by simp only [inRange, decide_eq_true_eq]; omega)]
            simp only [Option.some_bind]
            rw [if_pos (by simp only [inRange, decide_eq_true_eq]; omega)]
          · rw [if_neg (by omega), if_neg (by omega)]
            simp only [takeCont]
            rw [if_pos (by simp only [inRange, decide_eq_true_eq]; omega)]
            simp only [Option.some_bind]
            rw [if_pos (by simp only [inRange, decide_eq_true_eq]; omega)]
            simp only [Option.some_bind]
            rw [if_pos (by simp only [inRange, decide_eq_true_eq]; omega)]

/-- Every chain of scalar-value encodings passes the validator. -/
theorem chain_utf8Valid (data : List Nat) (h : Utf8Chain data) : utf8Valid data = true := by
  induction h with
  | nil => rw [utf8Valid]
  | cons c rest hc hch ih =>
    obtain ⟨b0, tl, he, hs⟩ := utf8Step_encodeScalar c rest hc
    rw [he, List.cons_append, utf8Valid, hs]
    exact ih

/-- A successful takeCont consumed one byte of the stated range. -/
theorem takeCont_inv (lo hi : Nat) (t r : List Nat) (h : takeCont lo hi t = some r) :
    ∃ b, t = b :: r ∧ lo ≤ b ∧ b ≤ hi := by
  cases t with
  | nil => cases h
  | cons b t1 =>
    simp only [takeCont] at h
    split_ifs at h with hb
    cases h
    simp only [inRange, decide_eq_true_eq] at hb
    exact ⟨b, rfl, hb⟩

/-- Completeness of the step function against the encoder: a successful validator step means the consumed bytes are the encoding of some scalar value. -/
theorem utf8Step_inv (b0 : Nat) (t rest : List Nat) (hs : utf8Step b0 t = some rest) :
    ∃ c, validScalar c = true ∧ b0 :: t = encodeScalar c ++ rest := by
  unfold utf8Step at hs
  split_ifs at hs
  · cases hs
    refine ⟨b0, by simp [validScalar]; omega, ?_⟩
    rw [encodeScalar, if_pos (by omega)]
    rfl
  · obtain ⟨b1, ht, hb1⟩ := takeCont_inv _ _ _ _ hs
    subst ht
    refine ⟨(b0 - 192) * 64 + (b1 - 128), by simp [validScalar]; omega, ?_⟩
    rw [encodeScalar, if_neg (by omega), if_pos (by omega)]
    have e0 : 192 + ((b0 - 192) * 64 + (b1 - 128)) / 64 = b0 := by omega
    have e1 : 128 + ((b0 - 192) * 64 + (b1 - 128)) % 64 = b1 := by omega
    rw [e0, e1]
    rfl
  all_goals
    first
    | (cases hm1 : takeCont _ _ t with
       | none => rw [hm1] at hs; cases hs
       | some r1 =>
         rw [hm1] at hs
         simp only [Option.some_bind] at hs
         obtain ⟨b1, ht, hb1⟩ := takeCont_inv _ _ _ _ hm1
         obtain ⟨b2, hr1, hb2⟩ := takeCont_inv _ _ _ _ hs
         subst ht hr1
         refine ⟨(b0 - 224) * 4096 + (b1 - 128) * 64 + (b2 - 128),
           by simp [validScalar]; omega, ?_⟩
         rw [encodeScalar, if_neg (by omega), if_neg (by omega), if_pos (by omega)]
         have e0 : 224 + ((b0 - 224) * 4096 + (b1 - 128) * 64 + (b2 - 128)) / 4096 = b0 := by
           omega
         have e1 : 128 + ((b0 - 224) * 4096 + (b1 - 128) * 64 + (b2 - 128)) / 64 % 64 = b1 := by
           omega
         have e2 : 128 + ((b0 - 224) * 4096 + (b1 - 128) * 64 + (b2 - 128)) % 64 = b2 := by
           omega
         rw [e0, e1, e2]
         rfl)
    | (cases hm1 : takeCont _ _ t with
       | none => rw [hm1] at hs; cases hs
       | some r1 =>
         rw [hm1] at hs
         simp only [Option.some_bind] at hs
         cases hm2 : takeCont 128 191 r1 with
         | none => rw [hm2] at hs; cases hs
         | some r2 =>
           rw [hm2] at hs
           simp only [Option.some_bind] at hs
           obtain ⟨b1, ht, hb1⟩ := takeCont_inv _ _ _ _ hm1
           obtain ⟨b2, hr1, hb2⟩ := takeCont_inv _ _ _ _ hm2
           obtain ⟨b3, hr2, hb3⟩ := takeCont_inv _ _ _ _ hs
           subst ht hr1 hr2
           refine ⟨(b0 - 240) * 262144 + (b1 - 128) * 4096 + (b2 - 128) * 64 + (b3 - 128),
             by simp [validScalar]; omega, ?_⟩
           rw [encodeScalar, if_neg (by omega), if_neg (by omega), if_neg (by omega)]
           have e0 : 240 + ((b0 - 240) * 262144 + (b1 - 128) * 4096 + (b2 - 128) * 64 +
               (b3 - 128)) / 262144 = b0 := by omega
           have e1 : 128 + ((b0 - 240) * 262144 + (b1 - 128) * 4096 + (b2 - 128) * 64 +
               (b3 - 128)) / 4096 % 64 = b1 := by omega
           have e2 : 128 + ((b0 - 240) * 262144 + (b1 - 128) * 4096 + (b2 - 128) * 64 +
               (b3 - 128)) / 64 % 64 = b2 := by omega
           have e3 : 128 + ((b0 - 240) * 262144 + (b1 - 128) * 4096 + (b2 - 128) * 64 +
               (b3 - 128)) % 64 = b3 := by omega
           rw [e0, e1, e2, e3]
           rfl)

/-- Every byte string accepted by the validator is a chain of scalar-value encodings. -/
theorem utf8Valid_chain : (data : List Nat) → utf8Valid data = true → Utf8Chain data
  | [], _ => .nil
  | b0 :: t, h => by
    rw [utf8Valid] at h
    cases hs : utf8Step b0 t with
    | none => rw [hs] at h; cases h
    | some rest =>
      rw [hs] at h
      obtain ⟨c, hc, henc⟩ := utf8Step_inv b0 t rest hs
      rw [henc]
      have hlen := utf8Step_length b0 t rest hs
      exact .cons c rest hc (utf8Valid_chain rest h)
termination_by data => data.length
decreasing_by
  simp only [List.length_cons]
  omega

/-- The validator accepts exactly the chains of scalar-value encodings. -/
theorem utf8Valid_iff_chain (data : List Nat) : utf8Valid data = true ↔ Utf8Chain data :=
  ⟨utf8Valid_chain data, chain_utf8Valid data⟩

/-- C6 (amended).  UTF8String.Decode validates with the semantics of Go utf8.Valid, which is RFC 3629, not the spec's range 0x1 to 0x7FFFFFFF: decoding succeeds exactly when the payload is a concatenation of UTF-8 encodings of Unicode scalar values — code points from U+0000 (so NUL is accepted) up to U+10FFFF (so the original-UTF-8 encodings of larger code points are rejected), surrogates excluded, shortest form — and returns the InvalidUTF8StringError exactly otherwise. -/
theorem C6_utf8_decode_characterization (data : Bytes) :
    (utf8StringDecode data = .ok data ↔ Utf8Chain data) ∧
    (utf8StringDecode data = .error "invalid UTF-8 string" ↔ ¬ Utf8Chain data) := by
  unfold utf8StringDecode
  by_cases h : utf8Valid data = true
  · rw [if_pos h]
    simp [utf8Valid_iff_chain data |>.mp h]
  · rw [if_neg h]
    have hn : ¬ Utf8Chain data := fun hc => h (chain_utf8Valid data hc)
    simp [hn]

end Diameter
